import Mathlib

/-!
Verification development for the ReadingBooks backend.

The extraction core lives in `backend/modules/llm_pipeline.py`; the
progress reporter in `backend/app.py`; file-type validation in
`backend/modules/utils.py`.  The definitions below are a shallow
embedding of that Python code.  External collaborators are modelled at
their interface boundary:

* the completion gateway `llm.invoke` is a parameter
  `gw : String → Option String` (`none` models a raised exception);
* the langchain `RecursiveCharacterTextSplitter.split_text` is a
  parameter `split : String → List String`;
* the `json` standard-library module is modelled by an executable JSON
  reader (`loads`) below, and `re.search`, `str.strip`,
  `os.path.splitext` by executable functions on character lists.
-/

/-- Values produced by the Python `json.loads` call.  Objects keep their
key insertion order (Python dicts preserve it) and numbers keep their
source lexeme (no code under verification inspects numeric values). -/
inductive Json where
  | null
  | bool (b : Bool)
  | num (lex : String)
  | str (s : String)
  | arr (items : List Json)
  | obj (kvs : List (String × Json))

/-- The character U+007B, kept out of source literals. -/
def lbrace : Char := Char.ofNat 123

/-- The character U+007D, kept out of source literals. -/
def rbrace : Char := Char.ofNat 125

/-- JSON whitespace accepted between tokens by `json.loads`. -/
def jsonWs (c : Char) : Bool := c == ' ' || c == '\t' || c == '\n' || c == '\r'

def skipWs (l : List Char) : List Char := l.dropWhile jsonWs

/-- Hexadecimal digit value, for string escapes. -/
def hexVal? (c : Char) : Option Nat :=
  if c.isDigit then some (c.toNat - 48)
  else if 'a' ≤ c ∧ c ≤ 'f' then some (c.toNat - 87)
  else if 'A' ≤ c ∧ c ≤ 'F' then some (c.toNat - 55)
  else none

/-- Single-character JSON string escapes. -/
def escChar? (c : Char) : Option Char :=
  if c = '"' then some '"'
  else if c = '\\' then some '\\'
  else if c = '/' then some '/'
  else if c = 'b' then some '\x08'
  else if c = 'f' then some '\x0C'
  else if c = 'n' then some '\n'
  else if c = 'r' then some '\r'
  else if c = 't' then some '\t'
  else none

/-- Body of a JSON string literal, after the opening quote: returns the
decoded characters and the input remaining after the closing quote.
Raw control characters are rejected, as in strict `json.loads`. -/
def parseStrAux : Nat → List Char → Option (List Char × List Char)
  | 0, _ => none
  | _, [] => none
  | f + 1, c :: cs =>
    if c = '"' then some ([], cs)
    else if c = '\\' then
      match cs with
      | 'u' :: a :: b :: c2 :: d :: rest =>
        match hexVal? a, hexVal? b, hexVal? c2, hexVal? d with
        | some ha, some hb, some hc, some hd =>
          (parseStrAux f rest).map
            (fun p => (Char.ofNat (((ha * 16 + hb) * 16 + hc) * 16 + hd) :: p.1, p.2))
        | _, _, _, _ => none
      | e :: rest =>
        match escChar? e with
        | some ch => (parseStrAux f rest).map (fun p => (ch :: p.1, p.2))
        | none => none
      | [] => none
    else if c.toNat < 32 then none
    else (parseStrAux f cs).map (fun p => (c :: p.1, p.2))

/-- Optional fraction part of a JSON number. -/
def jsonFracPart (l : List Char) : Option (List Char × List Char) :=
  match l with
  | '.' :: r =>
    let ds := r.takeWhile Char.isDigit
    if ds.isEmpty then none else some ('.' :: ds, r.dropWhile Char.isDigit)
  | _ => some ([], l)

/-- Optional exponent part of a JSON number. -/
def jsonExpPart (l : List Char) : Option (List Char × List Char) :=
  match l with
  | c :: r =>
    if c = 'e' ∨ c = 'E' then
      let (sgn2, r2) : List Char × List Char :=
        match r with
        | '+' :: rr => (['+'], rr)
        | '-' :: rr => (['-'], rr)
        | _ => ([], r)
      let ds := r2.takeWhile Char.isDigit
      if ds.isEmpty then none else some (c :: (sgn2 ++ ds), r2.dropWhile Char.isDigit)
    else some ([], l)
  | [] => some ([], [])

/-- JSON number token: optional minus, integer part with no leading
zeros, optional fraction and exponent.  Returns the lexeme. -/
def parseNum (l : List Char) : Option (String × List Char) :=
  let (sgn, l1) : List Char × List Char :=
    match l with
    | '-' :: r => (['-'], r)
    | _ => ([], l)
  let ipart : Option (List Char × List Char) :=
    match l1 with
    | '0' :: r => some (['0'], r)
    | c :: _ =>
      if c.isDigit then some (l1.takeWhile Char.isDigit, l1.dropWhile Char.isDigit)
      else none
    | [] => none
  match ipart with
  | none => none
  | some (ds, r1) =>
    match jsonFracPart r1 with
    | none => none
    | some (fp, r2) =>
      match jsonExpPart r2 with
      | none => none
      | some (ep, r3) => some (⟨sgn ++ ds ++ fp ++ ep⟩, r3)

/-- Insert a key/value pair as Python dict construction does: the first
occurrence of a key fixes its position, a later occurrence overwrites
the value in place. -/
def upsertKey (acc : List (String × Json)) (k : String) (v : Json) : List (String × Json) :=
  if acc.any (fun kv => kv.1 == k) then
    acc.map (fun kv => if kv.1 == k then (kv.1, v) else kv)
  else acc ++ [(k, v)]

def objFromPairs (ps : List (String × Json)) : List (String × Json) :=
  ps.foldl (fun acc kv => upsertKey acc kv.1 kv.2) []

/-- Literal keyword helper: consume an expected character sequence. -/
def expectChars : List Char → List Char → Option (List Char)
  | [], l => some l
  | p :: ps, c :: cs => if c = p then expectChars ps cs else none
  | _ :: _, [] => none

mutual

/-- One JSON value, consuming leading whitespace, fuel-bounded. -/
def parseValue : Nat → List Char → Option (Json × List Char)
  | 0, _ => none
  | f + 1, l =>
    match skipWs l with
    | [] => none
    | c :: cs =>
      if c = '"' then
        (parseStrAux (cs.length + 1) cs).map (fun p => (Json.str ⟨p.1⟩, p.2))
      else if c = '[' then
        match skipWs cs with
        | ']' :: r => some (Json.arr [], r)
        | r => (parseArrItems f r).map (fun p => (Json.arr p.1, p.2))
      else if c = lbrace then
        match skipWs cs with
        | x :: r2 =>
          if x = rbrace then some (Json.obj [], r2)
          else (parseObjItems f (x :: r2)).map (fun p => (Json.obj (objFromPairs p.1), p.2))
        | [] => none
      else if c = 't' then (expectChars (['r', 'u', 'e']) cs).map (fun r => (Json.bool true, r))
      else if c = 'f' then (expectChars (['a', 'l', 's', 'e']) cs).map (fun r => (Json.bool false, r))
      else if c = 'n' then (expectChars (['u', 'l', 'l']) cs).map (fun r => (Json.null, r))
      else (parseNum (c :: cs)).map (fun p => (Json.num p.1, p.2))

/-- Comma-separated array elements up to the closing bracket. -/
def parseArrItems : Nat → List Char → Option (List Json × List Char)
  | 0, _ => none
  | f + 1, l =>
    match parseValue f l with
    | none => none
    | some (v, r) =>
      match skipWs r with
      | ',' :: r2 => (parseArrItems f r2).map (fun p => (v :: p.1, p.2))
      | ']' :: r2 => some ([v], r2)
      | _ => none

/-- Comma-separated object members up to the closing brace. -/
def parseObjItems : Nat → List Char → Option (List (String × Json) × List Char)
  | 0, _ => none
  | f + 1, l =>
    match skipWs l with
    | '"' :: cs =>
      match parseStrAux (cs.length + 1) cs with
      | none => none
      | some (k, r) =>
        match skipWs r with
        | ':' :: r2 =>
          match parseValue f r2 with
          | none => none
          | some (v, r3) =>
            match skipWs r3 with
            | ',' :: r4 => (parseObjItems f r4).map (fun p => ((⟨k⟩, v) :: p.1, p.2))
            | x :: r4 => if x = rbrace then some ([(⟨k⟩, v)], r4) else none
            | [] => none
        | _ => none
    | _ => none

end

/-- Model of `json.loads` on a character list: one JSON document with
nothing but whitespace after it, otherwise a decode error (`none`). -/
def loadsL (l : List Char) : Option Json :=
  match parseValue (2 * l.length + 4) l with
  | some (v, r) => if (skipWs r).isEmpty then some v else none
  | none => none

/-- Model of `json.loads` on a Python string. -/
def loads (s : String) : Option Json := loadsL s.data

/-- Characters removed by Python `str.strip()` with no argument. -/
def pyWsChar (c : Char) : Bool :=
  c == ' ' || c == '\t' || c == '\n' || c == '\r' || c == '\x0B' || c == '\x0C'

/-- Model of Python `str.strip()`. -/
def pyStrip (l : List Char) : List Char :=
  ((l.dropWhile pyWsChar).reverse.dropWhile pyWsChar).reverse

/-- An apostrophe, as Python `repr` quotes strings with. -/
def sQuote : String := "\x27"

mutual

/-- Model of Python `repr` on JSON-decoded values (`str` of a container
applies `repr` to its elements).  Repr escaping subtleties are not
modelled; no verified path compares such output. -/
def pyRepr : Json → String
  | Json.null => "None"
  | Json.bool true => "True"
  | Json.bool false => "False"
  | Json.num lex => lex
  | Json.str s => sQuote ++ s ++ sQuote
  | Json.arr items => "[" ++ pyReprItems items ++ "]"
  | Json.obj kvs => String.singleton lbrace ++ pyReprPairs kvs ++ String.singleton rbrace

def pyReprItems : List Json → String
  | [] => ""
  | [x] => pyRepr x
  | x :: xs => pyRepr x ++ ", " ++ pyReprItems xs

def pyReprPairs : List (String × Json) → String
  | [] => ""
  | [kv] => sQuote ++ kv.1 ++ sQuote ++ ": " ++ pyRepr kv.2
  | kv :: kvs => sQuote ++ kv.1 ++ sQuote ++ ": " ++ pyRepr kv.2 ++ ", " ++ pyReprPairs kvs

end

/-- Model of Python `str()` (as used in f-strings): identity on strings,
`repr`-style elsewhere. -/
def pyStr : Json → String
  | Json.str s => s
  | v => pyRepr v

/-- Zero test on a JSON number lexeme, for Python truthiness. -/
def numLexZero (lex : String) : Bool :=
  (lex.data.takeWhile (fun c => c != 'e' && c != 'E')).all
    (fun c => c == '0' || c == '.' || c == '-' || c == '+')

/-- Python truthiness of a JSON-decoded value. -/
def pyTruthy : Json → Bool
  | Json.null => false
  | Json.bool b => b
  | Json.num lex => !numLexZero lex
  | Json.str s => !s.isEmpty
  | Json.arr items => !items.isEmpty
  | Json.obj kvs => !kvs.isEmpty

/-- Python `v[0]`: `some` the element for a nonempty list or string;
`none` models the raised `IndexError`/`KeyError`/`TypeError`. -/
def pyIndex0 : Json → Option Json
  | Json.arr (x :: _) => some x
  | Json.str s =>
    match s.data with
    | c :: _ => some (Json.str (String.singleton c))
    | [] => none
  | _ => none

/-- Python iteration as `list.extend` performs it: lists yield their
elements, strings their characters, dicts their keys; `none` models the
`TypeError` raised for non-iterable values. -/
def pyIter : Json → Option (List Json)
  | Json.arr items => some items
  | Json.str s => some (s.data.map (fun c => Json.str (String.singleton c)))
  | Json.obj kvs => some (kvs.map (fun kv => Json.str kv.1))
  | _ => none

def isArr : Json → Bool
  | Json.arr _ => true
  | _ => false

/-- Python dict lookup on a decoded object (keys are unique). -/
def lookupKey (kvs : List (String × Json)) (k : String) : Option Json :=
  (kvs.find? (fun kv => kv.1 == k)).map Prod.snd

/-- Model of `re.search(r'\[.*\]', s, re.DOTALL).group(0)`: the span
from the first `[` to the last `]`, provided that `]` comes after. -/
def greedySpan (l : List Char) : Option (List Char) :=
  let rest := l.dropWhile (fun c => c != '[')
  match rest with
  | [] => none
  | _ :: _ =>
    match (rest.reverse.dropWhile (fun c => c != ']')).reverse with
    | [] => none
    | c :: core => some (c :: core)

/-- Shared parse step of every extraction path (llm_pipeline.py lines
78-88, 145-153, 242-252, 271-282): unquote a double-encoded payload one
level, then parse; `none` models a raised `json.JSONDecodeError`. -/
def parseStage (cleaned : List Char) : Option Json :=
  if cleaned.head? = some '"' ∧ cleaned.getLast? = some '"' then
    match loadsL cleaned with
    | none => none
    | some (Json.str s) => loadsL s.data
    | some v => some v
  else loadsL cleaned

/-- The duplicate-removal loop of `extract_entities` (lines 122-129 and
157-164): keep each string value at its first appearance, drop every
non-string value; `seen` is the Python `seen` set. -/
def dedupAux (seen : List String) : List Json → List Json
  | [] => []
  | Json.str s :: xs =>
    if s ∈ seen then dedupAux seen xs else Json.str s :: dedupAux (s :: seen) xs
  | _ :: xs => dedupAux seen xs

def dedupEntities (l : List Json) : List Json := dedupAux [] l

/-- Entity-extraction prompt (PromptTemplate, lines 52-65): text before
the `text` placeholder. -/
def entityPromptPre : String :=
  "\n            Extract all human names (people) from the following text.\n            Return ONLY a valid JSON array of strings with the names.\n            Do not include any additional text, quotes, or formatting.\n            The response should be a direct JSON array, not wrapped in an object.\n            Example: [\"John Smith\", \"Mary Johnson\"]\n            \n            Text: "

/-- Entity-extraction prompt: text after the placeholder. -/
def entityPromptSuf : String := "\n            \n            JSON:\n            "

/-- Model of `entity_prompt.format(text=chunk)`. -/
def entityPrompt (text : String) : String := entityPromptPre ++ text ++ entityPromptSuf

/-- One segment of a template as the `str.format`-based f-string
formatter of langchain's `PromptTemplate` parses it: literal text, or a
replacement field `(name)` whose value is looked up among the keyword
arguments.  (Format specs and conversions play no role before a failing
lookup and are not modelled.) -/
inductive FmtPiece where
  | lit (s : String)
  | field (name : String)

/-- Minimal model of Python's `str.format` over pre-parsed segments:
literal segments are emitted, replacement fields are resolved in order
against the keyword arguments, and a field name that is not a keyword
raises `KeyError` — modelled as `none`, so no output string is produced
at all. -/
def pyFormat (kwargs : List (String × String)) : List FmtPiece → Option String
  | [] => some ""
  | FmtPiece.lit s :: rest => (pyFormat kwargs rest).map (fun out => s ++ out)
  | FmtPiece.field n :: rest =>
    match kwargs.find? (fun kv => kv.1 == n) with
    | some kv => (pyFormat kwargs rest).map (fun out => kv.2 ++ out)
    | none => none

/-- Relationship-extraction prompt (lines 217-230): text before the
`entities` placeholder. -/
def relPromptPre : String := "\n            Find relationships between these people in the text: "

/-- Relationship-extraction prompt: the literal between the `entities`
placeholder and the opening brace of the template's example record.
That brace is NOT escaped in the source (unlike the doubled braces in
`test_llm.py`), so the formatter reads what follows as a replacement
field. -/
def relPromptMid1 : String :=
  "\n            \n            Return ONLY a valid JSON array of objects with \"source\", \"target\", and \"type\" fields.\n            Do not include any additional text, quotes, or formatting.\n            Example: ["

/-- Relationship-extraction prompt: the literal after the example
record, before the `text` placeholder (never emitted: the formatter
raises at the example's field first). -/
def relPromptMid2 : String := "]\n            \n            Text: "

/-- Relationship-extraction prompt: text after the placeholders. -/
def relPromptSuf : String := "\n            \n            JSON:\n            "

/-- The relationship template as the f-string formatter parses it.  The
example record `[..."source": "John Smith"...]` at line 224 keeps its
literal braces, so the formatter sees a replacement field whose name is
the text up to the first colon: `"source"` — quotes included. -/
def relTemplatePieces : List FmtPiece :=
  [FmtPiece.lit relPromptPre,
   FmtPiece.field ("entities"),
   FmtPiece.lit relPromptMid1,
   FmtPiece.field ("\"source\""),
   FmtPiece.lit relPromptMid2,
   FmtPiece.field ("text"),
   FmtPiece.lit relPromptSuf]

/-- Model of `relationship_prompt.format(text=chunk, entities=names)`
(lines 240 and 269).  Only `text` and `entities` are passed as keyword
arguments, so resolving the template's `"source"` field raises
`KeyError` — the call produces no prompt string, on every input. -/
def relationshipPromptFmt (text : String) (ents : String) : Option String :=
  pyFormat [("text", text), ("entities", ents)] relTemplatePieces

/-- Formatting the relationship prompt always raises: the `"source"`
field of the unescaped example is not among the keyword arguments. -/
lemma relationshipPromptFmt_none (text ents : String) :
    relationshipPromptFmt text ents = none := rfl

/-- Outcome of processing one chunk inside the per-chunk `try`:
`ok` items are extended onto the accumulator, `skip` models a caught
`json.JSONDecodeError` (`continue`), `abort` models any other exception,
which escapes the loop to the outer `except Exception` handler. -/
inductive ChunkRes where
  | ok (items : List Json)
  | skip
  | abort

/-- Shape reconciliation of a parsed entity response (lines 90-107,
chunked path only): a dict is searched for `names`, then `entities`,
then its first list-valued field; a list is used as is; anything else
yields the empty list. -/
def shapeNames : Json → Json
  | Json.obj kvs =>
    match lookupKey kvs ("names") with
    | some v => v
    | none =>
      match lookupKey kvs ("entities") with
      | some v => v
      | none =>
        match (kvs.map Prod.snd).find? isArr with
        | some v => v
        | none => Json.arr []
  | Json.arr items => Json.arr items
  | _ => Json.arr []

/-- The comprehension `[item.get("name", str(item)) for item in names]`
(line 112): `none` models the `AttributeError` raised when an element is
not a dict. -/
def mapGetName : List Json → Option (List Json)
  | [] => some []
  | Json.obj kvs :: rest =>
    (mapGetName rest).map (fun tail =>
      (match lookupKey kvs ("name") with
       | some v => v
       | none => Json.str (pyRepr (Json.obj kvs))) :: tail)
  | _ :: _ => none

/-- Per-chunk body of the chunked entity path (lines 77-120): parse the
response, reconcile its shape, convert objects to names when the first
element is a dict, and extend the accumulator. -/
def entityChunkNormalize (r : String) : ChunkRes :=
  match parseStage (pyStrip r.data) with
  | none => ChunkRes.skip
  | some parsed =>
    let names := shapeNames parsed
    if pyTruthy names then
      match pyIndex0 names with
      | none => ChunkRes.abort
      | some (Json.obj _) =>
        match names with
        | Json.arr items =>
          match mapGetName items with
          | some es => ChunkRes.ok es
          | none => ChunkRes.abort
        | _ => ChunkRes.abort
      | some _ =>
        match pyIter names with
        | some items => ChunkRes.ok items
        | none => ChunkRes.abort
    else
      match pyIter names with
      | some items => ChunkRes.ok items
      | none => ChunkRes.abort

/-- The `for chunk in text_chunks` loop of `extract_entities` (lines
75-120).  Returns the accumulated `all_entities` (`none` when an
uncaught exception escaped the loop) and the number of gateway calls
issued. -/
def entChunkLoop (gw : String → Option String) : List String → Option (List Json) × Nat
  | [] => (some [], 0)
  | c :: cs =>
    match gw (entityPrompt c) with
    | none => (none, 1)
    | some r =>
      match entityChunkNormalize r with
      | ChunkRes.abort => (none, 1)
      | ChunkRes.skip =>
        let p := entChunkLoop gw cs
        (p.1, p.2 + 1)
      | ChunkRes.ok items =>
        let p := entChunkLoop gw cs
        ((p.1).map (fun acc => items ++ acc), p.2 + 1)

/-- Non-chunked entity path (lines 133-180): strip, bracket search,
unquote, parse; a parsed list is deduplicated keeping only strings,
anything else (or a decode error) yields `[]`.  The object-to-name
conversion at lines 169-175 is unreachable (it follows a `return`). -/
def nonChunkedEntities (r : String) : List Json :=
  let stripped := pyStrip r.data
  let cleaned :=
    match greedySpan stripped with
    | some b => b
    | none => stripped
  match parseStage cleaned with
  | some (Json.arr items) => dedupEntities items
  | _ => []

/-- Model of `extract_entities` (lines 30-184).  Returns the entity list
and the number of gateway calls; the outer `except Exception` handler
(line 182) turns any escaped exception into `[]`, so the function always
returns normally. -/
def extract_entities (split : String → List String) (gw : String → Option String)
    (text : String) : List Json × Nat :=
  if 4000 < text.length then
    match entChunkLoop gw (split text) with
    | (none, n) => ([], n)
    | (some all, n) => (dedupEntities all, n)
  else
    match gw (entityPrompt text) with
    | none => ([], 1)
    | some r => (nonChunkedEntities r, 1)

/-- The relationship dedup key (line 262),
`f"{rel['source']}-{rel['target']}-{rel['type']}"`: `none` models the
`KeyError`/`TypeError` raised when `rel` is not a dict carrying all
three fields. -/
def relKey : Json → Option String
  | Json.obj kvs =>
    match lookupKey kvs ("source"), lookupKey kvs ("target"), lookupKey kvs ("type") with
    | some s, some t, some ty => some (pyStr s ++ "-" ++ pyStr t ++ "-" ++ pyStr ty)
    | _, _, _ => none
  | _ => none

/-- The relationship duplicate-removal loop (lines 258-266): first
occurrence per `(source, target, type)` key kept; `none` when the key
construction raises. -/
def relDedupAux (seen : List String) : List Json → Option (List Json)
  | [] => some []
  | r :: rs =>
    match relKey r with
    | none => none
    | some k =>
      if k ∈ seen then relDedupAux seen rs
      else (relDedupAux (k :: seen) rs).map (fun tail => r :: tail)

def relDedup (l : List Json) : Option (List Json) := relDedupAux [] l

/-- Per-chunk body of the chunked relationship path (lines 241-256):
parse the response and extend `all_relationships` with it. -/
def relChunkContribute (r : String) : ChunkRes :=
  match parseStage (pyStrip r.data) with
  | none => ChunkRes.skip
  | some v =>
    match pyIter v with
    | some items => ChunkRes.ok items
    | none => ChunkRes.abort

/-- The `for chunk in text_chunks` loop of `extract_relationships`
(lines 239-256), with the gateway call and call count as in
`entChunkLoop`.  The prompt is formatted before `llm.invoke` (line
240), so a raised `format` call escapes the loop with no gateway call
made for that chunk. -/
def relChunkLoop (gw : String → Option String) (entsRepr : String) :
    List String → Option (List Json) × Nat
  | [] => (some [], 0)
  | c :: cs =>
    match relationshipPromptFmt c entsRepr with
    | none => (none, 0)
    | some prompt =>
      match gw prompt with
      | none => (none, 1)
      | some r =>
        match relChunkContribute r with
        | ChunkRes.abort => (none, 1)
        | ChunkRes.skip =>
          let p := relChunkLoop gw entsRepr cs
          (p.1, p.2 + 1)
        | ChunkRes.ok items =>
          let p := relChunkLoop gw entsRepr cs
          ((p.1).map (fun acc => items ++ acc), p.2 + 1)

/-- Model of `extract_relationships` (lines 186-290).  Returns the value
the Python function returns and the number of gateway calls; the outer
`except Exception` handler (line 288) turns any escaped exception —
including the `KeyError` that `relationship_prompt.format` raises on its
unescaped template braces — into `[]`. -/
def extract_relationships (split : String → List String) (gw : String → Option String)
    (text : String) (entities : List Json) : Json × Nat :=
  if entities.isEmpty then (Json.arr [], 0)
  else
    let entsRepr := pyStr (Json.arr entities)
    if 4000 < text.length then
      match relChunkLoop gw entsRepr (split text) with
      | (none, n) => (Json.arr [], n)
      | (some all, n) =>
        match relDedup all with
        | none => (Json.arr [], n)
        | some uniq => (Json.arr uniq, n)
    else
      match relationshipPromptFmt text entsRepr with
      | none => (Json.arr [], 0)
      | some prompt =>
        match gw prompt with
        | none => (Json.arr [], 1)
        | some r =>
          match parseStage (pyStrip r.data) with
          | none => (Json.arr [], 1)
          | some v => (v, 1)

/-- The record assembled by `process_text_with_llm` (lines 317-321). -/
structure LlmResult where
  entities : List Json
  relationships : Json
  text_length : Nat

/-- Model of `process_text_with_llm` (lines 292-321). -/
def process_text_with_llm (split : String → List String) (gw : String → Option String)
    (text : String) : LlmResult :=
  ⟨(extract_entities split gw text).1,
   (extract_relationships split gw text (extract_entities split gw text).1).1,
   text.length⟩

/-- Model of `os.path.splitext` (posix): split at the last dot of the
basename, unless every character before it in the basename is a dot. -/
def lastIdxOf? (c : Char) (l : List Char) : Option Nat :=
  (l.reverse.findIdx? (fun x => x == c)).map (fun k => l.length - 1 - k)

def pySplitext (p : String) : String × String :=
  let l := p.data
  let base : Nat :=
    match lastIdxOf? '/' l with
    | some i => i + 1
    | none => 0
  match lastIdxOf? '.' l with
  | some d =>
    if base ≤ d ∧ ((l.drop base).take (d - base)).any (fun c => c != '.') then
      (⟨l.take d⟩, ⟨l.drop d⟩)
    else (p, "")
  | none => (p, "")

/-- Model of Python `str.lower()` (ASCII range; the verified inputs are
ASCII). -/
def pyLower (s : String) : String := ⟨s.data.map Char.toLower⟩

/-- Default `allowed_extensions` of `validate_file_type`. -/
def allowed_extensions : List String := [".pdf"]

/-- Model of `validate_file_type` (utils.py lines 5-17). -/
def validate_file_type (filename : String) : Bool :=
  allowed_extensions.contains (pyLower (pySplitext filename).2)

/-- Setting `TEXT_PREVIEW_LENGTH` (settings.py line 21). -/
def TEXT_PREVIEW_LENGTH : Nat := 500

/-- Model of `get_text_preview` (pdf_parser.py lines 32-45). -/
def get_text_preview (text : String) (maxLength : Nat) : String :=
  if text.isEmpty then ""
  else ⟨text.data.take maxLength⟩ ++ (if maxLength < text.length then "..." else "")

/-- The final record of the streaming endpoint (app.py lines 122-128). -/
structure UploadResult where
  filename : String
  preview : String
  entities : List Json
  relationships : Json
  text_length : Nat

/-- One server-sent event of `progress_generator`: a JSON record with a
`progress`/`message` pair, or an `error`, and on the terminal record a
`result`. -/
structure Event where
  progress : Option Nat
  message : Option String
  error : Option String
  result : Option UploadResult

/-- Model of `progress_generator` (app.py lines 79-131) as the finite
event sequence it yields.  `pdfText` is the outcome of the external
`extract_text_from_pdf` collaborator (`none` = failure signal). -/
def progressGenerator (split : String → List String) (gw : String → Option String)
    (filename : String) (pdfText : Option String) : List Event :=
  if validate_file_type filename then
    Event.mk (some 10) (some ("File uploaded successfully")) none none ::
    Event.mk (some 20) (some ("PDF file read")) none none ::
    (match pdfText with
     | none => [Event.mk none none (some ("Failed to extract text from PDF")) none]
     | some text =>
       let r := process_text_with_llm split gw text
       [Event.mk (some 40) (some ("Text extracted (" ++ toString text.length ++ " characters)")) none none,
        Event.mk (some 50) (some ("Processing with AI...")) none none,
        Event.mk (some 80) (some ("AI processing complete. Found " ++ toString r.entities.length ++ " people")) none none,
        Event.mk (some 100) (some ("Processing complete!")) none
          (some (UploadResult.mk filename (get_text_preview text TEXT_PREVIEW_LENGTH)
                  r.entities r.relationships r.text_length))])
  else [Event.mk none none (some ("Only PDF files are supported")) none]

/-- Modelled from the spec (§4.3 step 3): the matching close bracket of
a balanced `[...]` span, tracking nesting depth. -/
def balClose : Nat → List Char → Option (List Char)
  | _, [] => none
  | d, c :: cs =>
    if c = '[' then (balClose (d + 1) cs).map (fun t => c :: t)
    else if c = ']' then
      if d = 1 then some [c] else (balClose (d - 1) cs).map (fun t => c :: t)
    else (balClose d cs).map (fun t => c :: t)

/-- Modelled from the spec: the FIRST balanced `[...]` substring of the
payload, as the claimed bracket-search behaviour. -/
def firstBalanced : List Char → Option (List Char)
  | [] => none
  | c :: cs => if c = '[' then (balClose 1 cs).map (fun t => c :: t) else firstBalanced cs

def isStrVal (s : String) : Json → Bool
  | Json.str t => s == t
  | _ => false

/-- Modelled from the spec (§3 Entity invariant): case-sensitive
exact-string dedup keeping the order of first appearance — each string
is kept where it first appears and its later duplicates are erased. -/
def firstOccurrences : List Json → List Json
  | [] => []
  | Json.str s :: xs =>
    Json.str s :: firstOccurrences (xs.filter (fun y => !isStrVal s y))
  | _ :: xs => firstOccurrences xs
termination_by l => l.length
decreasing_by
  · simp only [List.length_cons]
    exact Nat.lt_succ_of_le (List.length_filter_le _ _)
  · simp only [List.length_cons]
    exact Nat.lt_succ_self _

/-! Concrete artifacts shared by several claims. -/

/-- A document text of 4001 characters, above the 4000 chunking
threshold. -/
def textLong : String := ⟨List.replicate 4001 'x'⟩

lemma textLong_big : 4000 < textLong.length := by
  show 4000 < (List.replicate 4001 'x').length
  rw [List.length_replicate]
  decide

/-- Unfolding of `extract_entities` on the chunked path. -/
lemma extract_entities_long (split : String → List String) (gw : String → Option String)
    (text : String) (h : 4000 < text.length) :
    extract_entities split gw text =
      match entChunkLoop gw (split text) with
      | (none, n) => ([], n)
      | (some all, n) => (dedupEntities all, n) := by
  unfold extract_entities
  rw [if_pos h]

/-- Unfolding of `extract_relationships` on the chunked path. -/
lemma extract_relationships_long (split : String → List String) (gw : String → Option String)
    (text : String) (entities : List Json) (hne : entities.isEmpty = false)
    (h : 4000 < text.length) :
    extract_relationships split gw text entities =
      match relChunkLoop gw (pyStr (Json.arr entities)) (split text) with
      | (none, n) => (Json.arr [], n)
      | (some all, n) =>
        match relDedup all with
        | none => (Json.arr [], n)
        | some uniq => (Json.arr uniq, n) := by
  unfold extract_relationships
  rw [if_neg (by simp [hne]), if_pos h]

/-- The raw relationship response of claim C2: one complete record
followed by one record carrying only `source`. -/
def rawC2 : String :=
  "[\x7b\"source\":\"A\",\"target\":\"B\",\"type\":\"spouse\"\x7d,\x7b\"source\":\"A\"\x7d]"

def relC2full : Json :=
  Json.obj [("source", Json.str ("A")), ("target", Json.str ("B")), ("type", Json.str ("spouse"))]

/-- The raw entity response of claim C3: a JSON array of name objects. -/
def rawC3 : String := "[\x7b\"name\":\"John\"\x7d,\x7b\"name\":\"Mary\"\x7d]"

/-- Claim C2, as stated, is false on the code: even with a gateway
standing ready to answer the claim's literal raw string, extracting
relationships over non-empty entities returns the empty batch with
ZERO gateway calls — the prompt formatting raises on the template's
unescaped example braces before `llm.invoke` — so the complete record
is not kept (and nothing is selectively dropped). -/
theorem C2_counterexample :
    extract_relationships (fun t => [t]) (fun _ => some rawC2) ("short text")
        [Json.str ("A"), Json.str ("B")] = (Json.arr [], 0)
    ∧ relationshipPromptFmt ("short text")
        (pyStr (Json.arr [Json.str ("A"), Json.str ("B")])) = none
    ∧ Json.arr ([] : List Json) ≠ Json.arr [relC2full] := by
  refine ⟨rfl, rfl, ?_⟩
  simp [relC2full]

/-- Claim C2 amended: no relationship response is ever normalized, so
incomplete records are neither dropped nor kept.  The template's
example record keeps its literal braces (unlike the escaped `test_llm`
variant), so `relationship_prompt.format` raises `KeyError` on the
field `"source"` before the gateway is invoked, on both paths; the
function-level handler returns the empty list.  `extract_relationships`
therefore returns `[]` with zero gateway calls for every splitter,
gateway, text and entity list — at the claim's literal input included. -/
theorem C2_theorem :
    (∀ text ents : String, relationshipPromptFmt text ents = none)
    ∧ (∀ (split : String → List String) (gw : String → Option String)
        (text : String) (entities : List Json),
        extract_relationships split gw text entities = (Json.arr [], 0)) := by
  refine ⟨relationshipPromptFmt_none, ?_⟩
  intro split gw text entities
  unfold extract_relationships
  by_cases he : entities.isEmpty = true
  · rw [if_pos he]
  · rw [if_neg he]
    by_cases hl : 4000 < text.length
    · simp only [if_pos hl]
      cases hsp : split text with
      | nil => rfl
      | cons c cs => simp [relChunkLoop, relationshipPromptFmt_none]
    · simp only [if_neg hl]
      rw [relationshipPromptFmt_none]

/-- Claim C3: the claimed name-field extraction happens only on the
chunked path.  On the non-chunked path the conversion code is
unreachable (it follows a `return`), the string-only dedup filters the
objects out, and the extractor returns `[]` instead of the claimed
`["John", "Mary"]`; the chunked path returns the claimed value. -/
theorem C3_theorem :
    (extract_entities (fun t => [t]) (fun _ => some rawC3) ("short text")).1 = []
    ∧ nonChunkedEntities rawC3 = []
    ∧ (extract_entities (fun _ => ["c"]) (fun _ => some rawC3) textLong).1
        = [Json.str ("John"), Json.str ("Mary")] := by
  refine ⟨rfl, rfl, ?_⟩
  rw [extract_entities_long _ _ _ textLong_big]
  rfl

/-- Claim C4: with an empty entity list, `extract_relationships`
returns the empty list at once and issues zero gateway calls, for every
splitter, gateway and text. -/
theorem C4_theorem (split : String → List String) (gw : String → Option String)
    (text : String) : extract_relationships split gw text [] = (Json.arr [], 0) := rfl

/-- Claim C7: the orchestrator computes the entities first, feeds those
same entities to the relationship extractor, and assembles exactly the
record of entities, relationships and text length. -/
theorem C7_theorem (split : String → List String) (gw : String → Option String)
    (text : String) :
    (process_text_with_llm split gw text).entities = (extract_entities split gw text).1
    ∧ (process_text_with_llm split gw text).relationships
        = (extract_relationships split gw text (extract_entities split gw text).1).1
    ∧ (process_text_with_llm split gw text).text_length = text.length :=
  ⟨rfl, rfl, rfl⟩

/-- A gateway that raises on the prompt for chunk `"b"` and answers
`["John"]` for every other prompt. -/
def gwC1 : String → Option String :=
  fun p => if p = entityPrompt ("b") then none else some ("[\"John\"]")

/-- The gateway call sits before the per-chunk `try`, whose handler only
catches `json.JSONDecodeError`, so a raised gateway call escapes the
chunk loop: the accumulated result of the loop is lost. -/
lemma entChunkLoop_fail (gw : String → Option String) :
    ∀ chunks : List String, (∃ c ∈ chunks, gw (entityPrompt c) = none) →
      (entChunkLoop gw chunks).1 = none := by
  intro chunks
  induction chunks with
  | nil => rintro ⟨c, hc, _⟩; exact absurd hc (List.not_mem_nil c)
  | cons c cs ih =>
    rintro ⟨x, hx, hgw⟩
    rcases List.mem_cons.mp hx with h | h
    · subst h
      simp [entChunkLoop, hgw]
    · cases hc : gw (entityPrompt c) with
      | none => simp [entChunkLoop, hc]
      | some r =>
        have htail : (entChunkLoop gw cs).1 = none := ih ⟨x, h, hgw⟩
        cases hn : entityChunkNormalize r with
        | abort => simp [entChunkLoop, hc, hn]
        | skip => simp [entChunkLoop, hc, hn, htail]
        | ok items => simp [entChunkLoop, hc, hn, htail]

set_option maxRecDepth 8000 in
/-- Claim C1, as stated, is false on the code: with two chunks, where
the first chunk's completion yields `["John"]` and the gateway raises on
the second, `extract_entities` returns `[]` — not the surviving chunk's
entities `["John"]`.  (Chunk `"a"` demonstrably contributed `John`.) -/
theorem C1_counterexample :
    extract_entities (fun _ => ["a", "b"]) gwC1 textLong = ([], 2)
    ∧ entityChunkNormalize ("[\"John\"]") = ChunkRes.ok [Json.str ("John")]
    ∧ gwC1 (entityPrompt ("a")) = some ("[\"John\"]")
    ∧ ([] : List Json) ≠ [Json.str ("John")] := by
  refine ⟨?_, rfl, ?_, by simp⟩
  · rw [extract_entities_long _ _ _ textLong_big]
    rfl
  · rfl

/-- Claim C1 amended: when the gateway raises for any chunk of a
chunked text, no exception escapes `extract_entities` (it returns
normally, thanks to the outer handler), but its result is the empty
list — the contributions of the other N-1 chunks are discarded, not
returned. -/
theorem C1_theorem (split : String → List String) (gw : String → Option String)
    (text : String) (hlen : 4000 < text.length)
    (hfail : ∃ c ∈ split text, gw (entityPrompt c) = none) :
    (extract_entities split gw text).1 = [] := by
  rw [extract_entities_long _ _ _ hlen]
  have h := entChunkLoop_fail gw (split text) hfail
  cases hp : entChunkLoop gw (split text) with
  | mk o n =>
    rw [hp] at h
    cases o with
    | none => rfl
    | some all => exact absurd h (by simp)

set_option maxRecDepth 8000 in
/-- Witness for C1: the amended theorem applied at the concrete
two-chunk scenario of the counterexample. -/
theorem C1_witness :
    (extract_entities (fun _ => ["a", "b"]) gwC1 textLong).1 = [] :=
  C1_theorem (fun _ => ["a", "b"]) gwC1 textLong textLong_big
    ⟨"b", by simp, by simp [gwC1]⟩

lemma dropWhile_append_all {α : Type} (p : α → Bool) (a l : List α)
    (h : ∀ x ∈ a, p x = true) : (a ++ l).dropWhile p = l.dropWhile p := by
  induction a with
  | nil => rfl
  | cons x xs ih =>
    have hx := h x (List.mem_cons_self x xs)
    simp only [List.cons_append, List.dropWhile_cons, hx, if_true]
    exact ih (fun y hy => h y (List.mem_cons_of_mem x hy))

/-- The regex search `\[.*\]` is greedy: on a payload made of a
bracket-free prefix, a span starting with `[` and ending with `]`, and
a `]`-free suffix, it selects exactly that span. -/
lemma greedySpan_decomp (a b c : List Char) (ha : '[' ∉ a) (hc : ']' ∉ c)
    (hb1 : b.head? = some '[') (hb2 : b.getLast? = some ']') :
    greedySpan (a ++ b ++ c) = some b := by
  obtain ⟨b', rfl⟩ : ∃ b', b = '[' :: b' := by
    cases b with
    | nil => exact absurd hb1 (by simp)
    | cons x xs => exact ⟨xs, by simpa using congrArg (Option.getD · 'x') hb1⟩
  obtain ⟨t, hrev⟩ : ∃ t, ('[' :: b').reverse = ']' :: t := by
    have h1 : ('[' :: b').reverse.head? = some ']' := by
      rw [List.head?_reverse]; exact hb2
    cases hx : ('[' :: b').reverse with
    | nil => rw [hx] at h1; exact absurd h1 (by simp)
    | cons y ys =>
      rw [hx] at h1
      exact ⟨ys, by simpa using congrArg (Option.getD · 'x') h1⟩
  have h2 : (a ++ ('[' :: b') ++ c).dropWhile (fun x => x != '[') = ('[' :: b') ++ c := by
    rw [List.append_assoc, dropWhile_append_all _ a _ (fun x hx => by
      simp only [bne_iff_ne, ne_eq, decide_eq_true_eq]
      exact fun hEq => ha (hEq ▸ hx))]
    simp [List.dropWhile_cons]
  have h3 : ((('[' :: b') ++ c).reverse).dropWhile (fun x => x != ']') = ('[' :: b').reverse := by
    rw [List.reverse_append, dropWhile_append_all _ c.reverse _ (fun x hx => by
      simp only [bne_iff_ne, ne_eq, decide_eq_true_eq]
      exact fun hEq => hc (hEq ▸ List.mem_reverse.mp hx))]
    rw [hrev]
    simp [List.dropWhile_cons]
  unfold greedySpan
  rw [h2]
  simp only [h3, List.reverse_reverse]
  rfl

/-- The commentary-wrapped raw response of claim C5's counterexample:
two balanced bracket groups, so the greedy span is not valid JSON. -/
def rawC5 : String := "See: [\"A\"] mid [\"B\"] end"

/-- Claim C5, as stated, is false on the code: the bracket search is
greedy (first `[` to last `]`), not first-balanced.  On a response
holding two bracket groups the first balanced substring is `["A"]` and
parses to `["A"]`, but the code's span covers both groups, fails to
parse, and entity normalization returns `[]`. -/
theorem C5_counterexample :
    nonChunkedEntities rawC5 = []
    ∧ firstBalanced (pyStrip rawC5.data) = some (("[\"A\"]").data)
    ∧ loadsL (("[\"A\"]").data) = some (Json.arr [Json.str ("A")])
    ∧ ([] : List Json) ≠ [Json.str ("A")] :=
  ⟨rfl, rfl, rfl, by simp⟩

/-- Claim C5 amended: the search takes the span from the first `[` to
the last `]` (greedy), not the first balanced substring; when the
stripped raw text is a single bracketed JSON array surrounded by
commentary with no other square brackets, that array is extracted and
parsed — in particular `Here you go: ["John Smith"] enjoy!` yields
`["John Smith"]`. -/
theorem C5_theorem (raw : String) (a b c : List Char) (xs : List Json)
    (hsplit : pyStrip raw.data = a ++ b ++ c)
    (ha : '[' ∉ a) (hc : ']' ∉ c)
    (hb1 : b.head? = some '[') (hb2 : b.getLast? = some ']')
    (hparse : loadsL b = some (Json.arr xs)) :
    nonChunkedEntities raw = dedupEntities xs := by
  have hq : parseStage b = some (Json.arr xs) := by
    unfold parseStage
    rw [if_neg, hparse]
    intro hand
    rw [hb1] at hand
    exact absurd hand.1 (by simp)
  unfold nonChunkedEntities
  rw [hsplit]
  simp only [greedySpan_decomp a b c ha hc hb1 hb2, hq]

lemma isStrVal_of_not_str (s : String) (x : Json) (h : ∀ t, x ≠ Json.str t) :
    isStrVal s x = false := by
  cases x with
  | str t => exact absurd rfl (h t)
  | null => rfl
  | bool b => rfl
  | num lex => rfl
  | arr items => rfl
  | obj kvs => rfl

/-- The `seen`-set dedup loop of the code equals the spec's
first-appearance dedup, relative to the strings already seen. -/
lemma dedupAux_eq (l : List Json) : ∀ seen : List String,
    dedupAux seen l
      = firstOccurrences (l.filter (fun y => seen.all (fun s => !isStrVal s y))) := by
  induction l with
  | nil => intro seen; simp [dedupAux, firstOccurrences]
  | cons x xs ih =>
    intro seen
    by_cases hstr : ∃ s, x = Json.str s
    · obtain ⟨s, rfl⟩ := hstr
      by_cases hs : s ∈ seen
      · have hp : (seen.all fun s' => !isStrVal s' (Json.str s)) = false := by
          have hn : ¬(seen.all fun s' => !isStrVal s' (Json.str s)) = true := by
            rw [List.all_eq_true]
            intro hall
            have h2 := hall s hs
            simp [isStrVal] at h2
          exact Bool.eq_false_iff.mpr hn
        simp only [dedupAux, List.filter_cons, hp, if_pos hs]
        simp only [Bool.false_eq_true, if_false]
        exact ih seen
      · have hp : (seen.all fun s' => !isStrVal s' (Json.str s)) = true := by
          rw [List.all_eq_true]
          intro s' hs'
          simp only [isStrVal, Bool.not_eq_true', beq_eq_false_iff_ne, ne_eq]
          intro hEq
          exact hs (hEq ▸ hs')
        simp only [dedupAux, List.filter_cons, hp, if_neg hs, if_true]
        rw [firstOccurrences, ih (s :: seen), List.filter_filter]
        congr 1
    · have hne : ∀ t, x ≠ Json.str t := by
        intro t hEq
        exact hstr ⟨t, hEq⟩
      have hp : (seen.all fun s' => !isStrVal s' x) = true := by
        rw [List.all_eq_true]
        intro s' _
        rw [isStrVal_of_not_str s' x hne]
        rfl
      have hfo : ∀ rest : List Json, firstOccurrences (x :: rest) = firstOccurrences rest := by
        intro rest
        cases x with
        | str t => exact absurd rfl (hne t)
        | null => simp [firstOccurrences]
        | bool b => simp [firstOccurrences]
        | num lex => simp [firstOccurrences]
        | arr items => simp [firstOccurrences]
        | obj kvs => simp [firstOccurrences]
      have hda : dedupAux seen (x :: xs) = dedupAux seen xs := by
        cases x with
        | str t => exact absurd rfl (hne t)
        | null => rfl
        | bool b => rfl
        | num lex => rfl
        | arr items => rfl
        | obj kvs => rfl
      rw [hda, List.filter_cons, if_pos hp, hfo]
      exact ih seen

/-- The code's dedup IS the spec's first-appearance dedup. -/
lemma dedupEntities_eq (l : List Json) : dedupEntities l = firstOccurrences l := by
  rw [dedupEntities, dedupAux_eq l []]
  congr 1
  rw [List.filter_eq_self]
  intro y _
  rfl

lemma not_mem_dedupAux (l : List Json) : ∀ (seen : List String) (s : String),
    s ∈ seen → Json.str s ∉ dedupAux seen l := by
  induction l with
  | nil => intro seen s _ h; exact absurd h (List.not_mem_nil _)
  | cons x xs ih =>
    intro seen s hs
    cases x with
    | str t =>
      by_cases ht : t ∈ seen
      · simpa [dedupAux, if_pos ht] using ih seen s hs
      · simp only [dedupAux, if_neg ht]
        intro hmem
        rcases List.mem_cons.mp hmem with h | h
        · have hst : s = t := by simpa using h
          exact ht (hst ▸ hs)
        · exact ih (t :: seen) s (List.mem_cons_of_mem t hs) h
    | null => simpa [dedupAux] using ih seen s hs
    | bool b => simpa [dedupAux] using ih seen s hs
    | num lex => simpa [dedupAux] using ih seen s hs
    | arr items => simpa [dedupAux] using ih seen s hs
    | obj kvs => simpa [dedupAux] using ih seen s hs

lemma dedupAux_nodup (l : List Json) : ∀ seen : List String, (dedupAux seen l).Nodup := by
  induction l with
  | nil => intro seen; exact List.nodup_nil
  | cons x xs ih =>
    intro seen
    cases x with
    | str t =>
      by_cases ht : t ∈ seen
      · simpa [dedupAux, if_pos ht] using ih seen
      · simp only [dedupAux, if_neg ht]
        exact List.nodup_cons.mpr
          ⟨not_mem_dedupAux xs (t :: seen) t (List.mem_cons_self t seen), ih (t :: seen)⟩
    | null => simpa [dedupAux] using ih seen
    | bool b => simpa [dedupAux] using ih seen
    | num lex => simpa [dedupAux] using ih seen
    | arr items => simpa [dedupAux] using ih seen
    | obj kvs => simpa [dedupAux] using ih seen

lemma mem_dedupAux_str (l : List Json) : ∀ (seen : List String) (x : Json),
    x ∈ dedupAux seen l → ∃ s, x = Json.str s := by
  induction l with
  | nil => intro seen x h; exact absurd h (List.not_mem_nil _)
  | cons y ys ih =>
    intro seen x
    cases y with
    | str t =>
      by_cases ht : t ∈ seen
      · rw [dedupAux, if_pos ht]; exact ih seen x
      · rw [dedupAux, if_neg ht]
        intro hmem
        rcases List.mem_cons.mp hmem with h | h
        · exact ⟨t, h⟩
        · exact ih (t :: seen) x h
    | null => exact ih seen x
    | bool b => exact ih seen x
    | num lex => exact ih seen x
    | arr items => exact ih seen x
    | obj kvs => exact ih seen x

/-- Every entity-extraction result is either empty or a run of the
dedup loop. -/
lemma nonChunkedEntities_shape (r : String) :
    nonChunkedEntities r = [] ∨ ∃ items, nonChunkedEntities r = dedupEntities items := by
  unfold nonChunkedEntities
  cases hp : parseStage
      (match greedySpan (pyStrip r.data) with
       | some b => b
       | none => pyStrip r.data) with
  | none => left; simp only [hp]
  | some v =>
    cases v with
    | arr items => right; exact ⟨items, by simp only [hp]⟩
    | null => left; simp only [hp]
    | bool b => left; simp only [hp]
    | num lex => left; simp only [hp]
    | str s => left; simp only [hp]
    | obj kvs => left; simp only [hp]

lemma extract_entities_shape (split : String → List String) (gw : String → Option String)
    (text : String) :
    (extract_entities split gw text).1 = []
      ∨ ∃ items, (extract_entities split gw text).1 = dedupEntities items := by
  unfold extract_entities
  by_cases h : 4000 < text.length
  · rw [if_pos h]
    cases hp : entChunkLoop gw (split text) with
    | mk o n =>
      cases o with
      | none => left; rfl
      | some all => right; exact ⟨all, rfl⟩
  · rw [if_neg h]
    cases hg : gw (entityPrompt text) with
    | none => left; rfl
    | some r => simpa using nonChunkedEntities_shape r

/-- Claim C6: the entity list produced by `extract_entities` never
holds two equal strings, the code's dedup equals the spec's
first-appearance dedup, and a response yielding `["A","B","A","C"]`
produces exactly `["A","B","C"]` (both as the dedup step itself and
through the whole non-chunked extractor). -/
theorem C6_theorem :
    (∀ l : List Json, dedupEntities l = firstOccurrences l)
    ∧ (∀ (split : String → List String) (gw : String → Option String) (text : String),
        ((extract_entities split gw text).1).Nodup)
    ∧ dedupEntities [Json.str ("A"), Json.str ("B"), Json.str ("A"), Json.str ("C")]
        = [Json.str ("A"), Json.str ("B"), Json.str ("C")]
    ∧ (extract_entities (fun t => [t]) (fun _ => some ("[\"A\",\"B\",\"A\",\"C\"]"))
        ("short text")).1 = [Json.str ("A"), Json.str ("B"), Json.str ("C")] := by
  refine ⟨dedupEntities_eq, ?_, rfl, rfl⟩
  intro split gw text
  rcases extract_entities_shape split gw text with h | ⟨items, h⟩
  · rw [h]; exact List.nodup_nil
  · rw [h]; exact dedupAux_nodup items []

/-- Claim C10: every element of the sequence returned by
`extract_entities` is a string — non-string parsed items are filtered
out by the dedup step on both the chunked and the non-chunked path. -/
theorem C10_theorem (split : String → List String) (gw : String → Option String)
    (text : String) (x : Json) (hx : x ∈ (extract_entities split gw text).1) :
    ∃ s, x = Json.str s := by
  rcases extract_entities_shape split gw text with h | ⟨items, h⟩
  · rw [h] at hx; exact absurd hx (List.not_mem_nil _)
  · rw [h] at hx; exact mem_dedupAux_str items [] x hx

/-- Witness for C10: at a concrete extraction whose response is
`["A"]`, the returned element is the string `A`. -/
theorem C10_witness :
    ∃ s, Json.str ("A") = Json.str s :=
  C10_theorem (fun t => [t]) (fun _ => some ("[\"A\"]")) ("short text") (Json.str ("A"))
    (show Json.str ("A") ∈ [Json.str ("A")] from List.mem_singleton_self _)

/-- Claim C8: the reporter's progress percentages are drawn, in order,
from the fixed strictly-increasing sequence 10, 20, 40, 50, 80, 100
(so they are fixed and strictly increasing); only the last event can
carry a result and any result-carrying event sits at 100%; and when
file-type validation or text extraction fails, the last event is a
single error event, no earlier event carries an error, and no event at
all carries a (partial) result. -/
theorem C8_theorem (split : String → List String) (gw : String → Option String)
    (fn : String) (pdfText : Option String) :
    List.Sublist ((progressGenerator split gw fn pdfText).filterMap Event.progress)
      [10, 20, 40, 50, 80, 100]
    ∧ (∀ e ∈ (progressGenerator split gw fn pdfText).dropLast, e.result = none)
    ∧ (∀ e ∈ progressGenerator split gw fn pdfText,
        e.result.isSome = true → e.progress = some 100)
    ∧ ((validate_file_type fn = false ∨ pdfText = none) →
        (∃ msg, (progressGenerator split gw fn pdfText).getLast?
            = some (Event.mk none none (some msg) none))
        ∧ (∀ e ∈ (progressGenerator split gw fn pdfText).dropLast, e.error = none)
        ∧ (∀ e ∈ progressGenerator split gw fn pdfText, e.result = none)) := by
  cases hv : validate_file_type fn with
  | false =>
    have hev : progressGenerator split gw fn pdfText
        = [Event.mk none none (some ("Only PDF files are supported")) none] := by
      simp [progressGenerator, hv]
    rw [hev]
    refine ⟨?_, ?_, ?_, fun _ => ⟨⟨"Only PDF files are supported", rfl⟩, ?_, ?_⟩⟩
    · simp
    · intro e he
      simp at he
    · intro e he h
      rw [List.mem_singleton] at he
      subst he
      simp at h
    · intro e he
      simp at he
    · intro e he
      rw [List.mem_singleton] at he
      subst he
      rfl
  | true =>
    cases pdfText with
    | none =>
      have hev : progressGenerator split gw fn none
          = [Event.mk (some 10) (some ("File uploaded successfully")) none none,
             Event.mk (some 20) (some ("PDF file read")) none none,
             Event.mk none none (some ("Failed to extract text from PDF")) none] := by
        simp [progressGenerator, hv]
      rw [hev]
      refine ⟨?_, ?_, ?_, fun _ => ⟨⟨"Failed to extract text from PDF", rfl⟩, ?_, ?_⟩⟩
      · simp
      · intro e he
        simp only [List.dropLast] at he
        simp at he
        rcases he with rfl | rfl
        · rfl
        · rfl
      · intro e he h
        simp at he
        rcases he with rfl | rfl | rfl <;> simp at h
      · intro e he
        simp only [List.dropLast] at he
        simp at he
        rcases he with rfl | rfl
        · rfl
        · rfl
      · intro e he
        simp at he
        rcases he with rfl | rfl | rfl
        · rfl
        · rfl
        · rfl
    | some text =>
      have hev : progressGenerator split gw fn (some text)
          = [Event.mk (some 10) (some ("File uploaded successfully")) none none,
             Event.mk (some 20) (some ("PDF file read")) none none,
             Event.mk (some 40)
               (some ("Text extracted (" ++ toString text.length ++ " characters)")) none none,
             Event.mk (some 50) (some ("Processing with AI...")) none none,
             Event.mk (some 80)
               (some ("AI processing complete. Found "
                  ++ toString (process_text_with_llm split gw text).entities.length
                  ++ " people")) none none,
             Event.mk (some 100) (some ("Processing complete!")) none
               (some (UploadResult.mk fn (get_text_preview text TEXT_PREVIEW_LENGTH)
                  (process_text_with_llm split gw text).entities
                  (process_text_with_llm split gw text).relationships
                  (process_text_with_llm split gw text).text_length))] := by
        simp [progressGenerator, hv]
      rw [hev]
      refine ⟨?_, ?_, ?_, ?_⟩
      · simp
      · intro e he
        simp only [List.dropLast] at he
        simp at he
        rcases he with rfl | rfl | rfl | rfl | rfl
        · rfl
        · rfl
        · rfl
        · rfl
        · rfl
      · intro e he h
        simp at he
        rcases he with rfl | rfl | rfl | rfl | rfl | rfl
        · simp at h
        · simp at h
        · simp at h
        · simp at h
        · simp at h
        · rfl
      · intro hbad
        rcases hbad with h | h
        · exact absurd h (by simp)
        · exact absurd h (by simp)

/-- Witness for C8: the error-branch conjuncts at a concrete rejected
filename (`x.txt` fails validation): the single event is a terminal
error event and carries no result. -/
theorem C8_witness :
    (∃ msg, (progressGenerator (fun t => [t]) (fun _ => none) ("x.txt") none).getLast?
        = some (Event.mk none none (some msg) none))
    ∧ (∀ e ∈ progressGenerator (fun t => [t]) (fun _ => none) ("x.txt") none,
        e.result = none) :=
  have h := C8_theorem (fun t => [t]) (fun _ => none) ("x.txt") none
  have herr := h.2.2.2 (Or.inl (by decide))
  ⟨herr.1, herr.2.2⟩

/-- Claim C9: file-type validation lowercases the extension computed by
`os.path.splitext` and accepts exactly the allowed list, so `.PDF` and
`.Pdf` are accepted like `.pdf`, and a filename with no dot at all (no
extension) is rejected. -/
theorem C9_theorem :
    (∀ fn : String, validate_file_type fn = true
        ↔ pyLower (pySplitext fn).2 ∈ allowed_extensions)
    ∧ validate_file_type ("a.PDF") = true
    ∧ validate_file_type ("a.Pdf") = true
    ∧ validate_file_type ("a.pdf") = true
    ∧ validate_file_type ("noextension") = false
    ∧ (∀ fn : String, '.' ∉ fn.data → validate_file_type fn = false) := by
  refine ⟨?_, rfl, rfl, rfl, rfl, ?_⟩
  · intro fn
    simp [validate_file_type]
  · intro fn h
    have h1 : lastIdxOf? '.' fn.data = none := by
      unfold lastIdxOf?
      rw [List.findIdx?_eq_none_iff.mpr]
      · rfl
      · intro x hx
        simp only [beq_eq_false_iff_ne, ne_eq]
        intro hEq
        exact h (hEq ▸ List.mem_reverse.mp hx)
    simp only [validate_file_type, pySplitext, h1]
    rfl

/-- Witness for C9: its no-extension conjunct at a concrete dotless
filename. -/
theorem C9_witness : validate_file_type ("thesis") = false :=
  C9_theorem.2.2.2.2.2 ("thesis") (by decide)

/-- Witness for C5: the amended theorem at the literal input of the
claim. -/
theorem C5_witness :
    nonChunkedEntities ("Here you go: [\"John Smith\"] enjoy!")
      = dedupEntities [Json.str ("John Smith")] :=
  C5_theorem ("Here you go: [\"John Smith\"] enjoy!")
    (("Here you go: ").data) (("[\"John Smith\"]").data) ((" enjoy!").data)
    [Json.str ("John Smith")] rfl (by decide) (by decide) rfl rfl rfl
